import Mathlib

/-!
Shallow embedding of the CASICS collector's crawl-and-reconciliation engine
(`github_indexer.py`, `cataloguer.py`) and proofs about it.

The store (MongoDB collection of repository entries) is modelled as a list of
entries; network interactions (GitHub home-page scrapes, direct API calls,
github3 repository lookups) are modelled by explicit oracle environments so
that the control flow of the Python code can be reproduced faithfully.
-/

namespace Collector

/-! ## Crawl cursor and index sweep (`get_last_seen_id`, `create_index`) -/

/-- Python exception kinds that the embedding makes explicit. -/
inductive PyError where
  | typeError
  deriving Repr, DecidableEq

/-- `self.db.find_one({'$query':{}, '$orderby':{'_id':-1}}, {})`: the entry of
the store with the largest `_id`, or `none` when the store is empty.  The
store is modelled by its list of ids. -/
def find_one_desc (db : List Nat) : Option Nat :=
  db.max?

/-- `GitHubIndexer.get_last_seen_id`: dereferences `last['_id']` on the result
of `find_one_desc`; when the store is empty, `find_one` returns `None` and the
subscript raises a `TypeError`. -/
def get_last_seen_id (db : List Nat) : Except PyError Nat :=
  match find_one_desc db with
  | none => .error .typeError
  | some i => .ok i

/-- The starting id chosen by `create_index` when it is given no explicit
targets: it calls `get_last_seen_id`; the value is used truthily (`if
last_seen:`), falling back to `-1` ("start from the top") when falsy. -/
def create_index_start (db : List Nat) : Except PyError Int :=
  match get_last_seen_id db with
  | .error e => .error e
  | .ok last_seen => .ok (if last_seen ≠ 0 then (last_seen : Int) else -1)

/-- `github.iter_all_repos(since=c)`: GitHub's enumeration lists repositories
in ascending id order, returning those with id strictly greater than `c`. -/
def enumerate_since (host : List Nat) (c : Nat) : List Nat :=
  host.filter (fun i => c < i)

/-- One full `create_index` sweep (no explicit targets) over host listing
`host` starting from store `db`: the ids processed, in order.  Each processed
repository is inserted into the store by `add_entry_from_github3`. -/
def sweep_processed (host db : List Nat) : List Nat :=
  match get_last_seen_id db with
  | .error _ => []
  | .ok last_seen => enumerate_since host last_seen

/-- The store contents after an uninterrupted sweep. -/
def sweep_final (host db : List Nat) : List Nat :=
  db ++ sweep_processed host db

/-- The store contents after a sweep interrupted when exactly `n` items have
been fully processed (each completed item was durably inserted). -/
def sweep_interrupted (host db : List Nat) (n : Nat) : List Nat :=
  db ++ (sweep_processed host db).take n

theorem max?_spec {db : List Nat} {m : Nat} : db.max? = some m ↔ m ∈ db ∧ ∀ x ∈ db, x ≤ m :=
  List.max?_eq_some_iff (fun a => le_refl a) (fun a b => max_choice a b) (fun _ _ _ => max_le_iff)

theorem max?_of_ne_nil {db : List Nat} (h : db ≠ []) : ∃ m, db.max? = some m := by
  cases hd : db.max? with
  | none => exact absurd (List.max?_eq_none_iff.mp hd) h
  | some m => exact ⟨m, rfl⟩

theorem sorted_le_getLast {l : List Nat} (hs : l.Sorted (· < ·)) (h : l ≠ []) :
    ∀ x ∈ l, x ≤ l.getLast h := by
  induction l with
  | nil => exact absurd rfl h
  | cons a t ih =>
    intro x hx
    cases t with
    | nil => simp at hx; simp [hx, List.getLast]
    | cons b u =>
      rw [List.getLast_cons (by simp)]
      rcases List.mem_cons.mp hx with rfl | hx'
      · have hab : x < b := (List.pairwise_cons.mp hs).1 b (by simp)
        have hb := ih (List.pairwise_cons.mp hs).2 (by simp) b (by simp)
        exact le_trans (le_of_lt hab) hb
      · exact ih (List.pairwise_cons.mp hs).2 (by simp) x hx'

/-- Restarting after `n` completed items processes exactly the remaining
enumeration: the new cursor (highest stored id) filters out everything
already completed. -/
theorem sweep_resume_drop (host db : List Nat) (hhost : host.Sorted (· < ·))
    (hdb : db ≠ []) (n : Nat) :
    sweep_processed host (sweep_interrupted host db n) = (sweep_processed host db).drop n := by
  obtain ⟨last, hlast⟩ := max?_of_ne_nil hdb
  have hproc : sweep_processed host db = host.filter (fun i => decide (last < i)) := by
    simp [sweep_processed, get_last_seen_id, find_one_desc, hlast, enumerate_since]
  set todo := host.filter (fun i => decide (last < i)) with htodo
  have htodo_sorted : todo.Sorted (· < ·) := List.Pairwise.filter _ hhost
  have htodo_mem : ∀ x ∈ todo, last < x := by
    intro x hx
    exact of_decide_eq_true (List.mem_filter.mp hx).2
  by_cases htn : todo.take n = []
  · -- nothing was completed (n = 0) or nothing was left to do
    have hint : sweep_interrupted host db n = db := by
      simp [sweep_interrupted, hproc, htn]
    rcases List.take_eq_nil_iff.mp htn with hn | hte
    · subst hn
      simp [hint, hproc]
    · rw [hint, hproc, hte, List.drop_nil]
  · -- at least one item completed; the new cursor is the last completed id
    set t := todo.take n with ht
    set g := t.getLast htn with hg
    have hgt : g ∈ t := List.getLast_mem htn
    have hgtodo : g ∈ todo := (List.take_sublist n todo).mem hgt
    have hlastg : last < g := htodo_mem g hgtodo
    have ht_sorted : t.Sorted (· < ·) :=
      List.Pairwise.sublist (List.take_sublist n todo) htodo_sorted
    have ht_le : ∀ x ∈ t, x ≤ g := sorted_le_getLast ht_sorted htn
    have hdrop_gt : ∀ y ∈ todo.drop n, g < y := by
      have hsplit : (t ++ todo.drop n).Pairwise (· < ·) := by
        rw [ht, List.take_append_drop]; exact htodo_sorted
      intro y hy
      exact (List.pairwise_append.mp hsplit).2.2 g hgt y hy
    have hmax1 : (db ++ t).max? = some g := by
      apply max?_spec.mpr
      constructor
      · exact List.mem_append.mpr (Or.inr hgt)
      · intro x hx
        rcases List.mem_append.mp hx with hxd | hxt
        · exact le_trans ((max?_spec.mp hlast).2 x hxd) (le_of_lt hlastg)
        · exact ht_le x hxt
    have hint : sweep_interrupted host db n = db ++ t := by
      simp [sweep_interrupted, hproc, ht]
    rw [hint, hproc]
    simp only [sweep_processed, get_last_seen_id, find_one_desc, hmax1, enumerate_since]
    have hff : host.filter (fun i => decide (g < i)) = todo.filter (fun i => decide (g < i)) := by
      rw [htodo, List.filter_filter]
      apply List.filter_congr
      intro x _
      by_cases hgx : g < x
      · have : last < x := lt_trans hlastg hgx
        simp [hgx, this]
      · simp [hgx]
    rw [hff]
    conv_lhs => rw [← List.take_append_drop n todo]
    rw [List.filter_append]
    have h1 : (todo.take n).filter (fun i => decide (g < i)) = [] := by
      apply List.filter_eq_nil_iff.mpr
      intro x hx
      simp only [decide_eq_true_eq]
      exact not_lt.mpr (ht_le x hx)
    have h2 : (todo.drop n).filter (fun i => decide (g < i)) = todo.drop n := by
      apply List.filter_eq_self.mpr
      intro y hy
      simp only [decide_eq_true_eq]
      exact hdrop_gt y hy
    rw [h1, h2, List.nil_append]

/-- C1: Resumability of a sweep.  For every nonempty store and every host
enumeration sorted in ascending id order, a `create_index` sweep with no
explicit targets that is interrupted after `n` fully-processed items, when
restarted, (a) processes exactly the remaining enumeration, (b) never
reprocesses any already-completed id, and (c) leaves the store — and hence
the terminal cursor — identical to that of an uninterrupted sweep. -/
theorem c1_resumability (host db : List Nat) (hhost : host.Sorted (· < ·))
    (hdb : db ≠ []) (n : Nat) :
    sweep_processed host (sweep_interrupted host db n) = (sweep_processed host db).drop n
    ∧ (∀ i ∈ sweep_processed host (sweep_interrupted host db n),
        i ∉ (sweep_processed host db).take n)
    ∧ sweep_final host (sweep_interrupted host db n) = sweep_final host db := by
  have hdrop := sweep_resume_drop host db hhost hdb n
  refine ⟨hdrop, ?_, ?_⟩
  · intro i hi
    rw [hdrop] at hi
    obtain ⟨last, hlast⟩ := max?_of_ne_nil hdb
    have hproc : sweep_processed host db = host.filter (fun i => decide (last < i)) := by
      simp [sweep_processed, get_last_seen_id, find_one_desc, hlast, enumerate_since]
    have hnodup : (sweep_processed host db).Nodup := by
      rw [hproc]
      exact ((List.Pairwise.filter _ hhost).imp (fun h => ne_of_lt h) : _)
    exact fun hmem =>
      (List.disjoint_take_drop hnodup (le_refl n)) hmem hi
  · show sweep_interrupted host db n ++ _ = _
    rw [hdrop]
    simp only [sweep_interrupted, sweep_final, List.append_assoc, List.take_append_drop]

/-- Witness for C1 at a concrete host enumeration, store, and interruption
point. -/
theorem c1_resumability_witness :
    sweep_processed [1,2,3,4] (sweep_interrupted [1,2,3,4] [2] 1)
      = (sweep_processed [1,2,3,4] [2]).drop 1
    ∧ (∀ i ∈ sweep_processed [1,2,3,4] (sweep_interrupted [1,2,3,4] [2] 1),
        i ∉ (sweep_processed [1,2,3,4] [2]).take 1)
    ∧ sweep_final [1,2,3,4] (sweep_interrupted [1,2,3,4] [2] 1) = sweep_final [1,2,3,4] [2] :=
  c1_resumability [1,2,3,4] [2] (by decide) (by decide) 1

/-- C10: Empty-store bootstrap.  With an empty store, `get_last_seen_id`
dereferences `find_one`'s `None` result and raises a `TypeError`, so an
index build with no explicit targets raises instead of reaching the
"no record of the last-seen repo, start from the top" branch (which would
have produced the `-1` starting id). -/
theorem c10_empty_store_raises :
    create_index_start [] = .error .typeError
    ∧ get_last_seen_id [] = .error .typeError
    ∧ ∀ db : List Nat, create_index_start db = .ok (-1) → 0 ∈ db := by
  refine ⟨rfl, rfl, ?_⟩
  intro db h
  cases hd : db.max? with
  | none => simp [create_index_start, get_last_seen_id, find_one_desc, hd] at h
  | some m =>
    simp only [create_index_start, get_last_seen_id, find_one_desc, hd] at h
    by_cases hm : m = 0
    · subst hm
      exact (max?_spec.mp hd).1
    · simp [hm] at h

/-! ## Retry/failure policy and rate-limit handling (`GitHubIndexer.loop`) -/

/-- `GitHubIndexer._max_failures`. -/
def maxFailures : Nat := 10

/-- One outcome of invoking `body_function(entry)` inside `loop`'s retry
loop: success, a GitHub error with code 403 (together with what
`api_calls_left()` would report), a 451 (legally blocked), another GitHub
API error (possibly transient), an unexpected exception, or `StopIteration`. -/
inductive Attempt where
  | success
  | err403 (remaining : Nat)
  | err451
  | transientErr
  | unexpectedErr
  | stopIter
  deriving Repr, DecidableEq

/-- Observable events of the sweep loop: a quota query (`api_calls_left`),
a wait for the quota reset (`wait_for_reset`), and an invocation of the
per-item body (the item's network operation). -/
inductive Event where
  | queryQuota (remaining : Nat)
  | waitReset
  | attempt
  deriving Repr, DecidableEq

/-- One iteration of `loop`'s `while retry` body: given the consecutive
failure counter, an attempt outcome yields emitted events, the new counter,
and whether to retry the same item. -/
def runAttempt (f : Nat) : Attempt → (List Event × Nat × Bool)
  | .success       => ([.attempt], 0, false)
  | .err403 r      =>
      if r < 1 then ([.attempt, .queryQuota r, .waitReset], f, true)
      else ([.attempt, .queryQuota r], f + 1, false)
  | .err451        => ([.attempt], f, false)
  | .transientErr  => ([.attempt], f + 1, true)
  | .unexpectedErr => ([.attempt], f + 1, false)
  | .stopIter      => ([.attempt], f, false)

/-- The `while retry and failures < self._max_failures` loop for one item,
driven by the item's script of attempt outcomes. -/
def itemRun (maxF : Nat) : Nat → List Attempt → (List Event × Nat)
  | f, [] => ([], f)
  | f, a :: rest =>
      if f < maxF then
        let (es, f', retry) := runAttempt f a
        if retry then
          let (es₂, f₂) := itemRun maxF f' rest
          (es ++ es₂, f₂)
        else (es, f')
      else ([], f)

/-- The `for entry in iterator(...)` loop of `GitHubIndexer.loop`: events,
final failure counter, and whether the sweep stopped because of too many
consecutive failures. -/
def loopRun (maxF : Nat) : Nat → List (List Attempt) → (List Event × Nat × Bool)
  | f, [] => ([], f, false)
  | f, it :: rest =>
      let (es, f') := itemRun maxF f it
      if maxF ≤ f' then (es, f', true)
      else
        let (es₂, f₂, ab) := loopRun maxF f' rest
        (es ++ es₂, f₂, ab)

def loopAborted (maxF f : Nat) (items : List (List Attempt)) : Bool :=
  (loopRun maxF f items).2.2

/-- The full event trace of `loop`, starting with the informational
`api_calls_left()` query issued before the first item. -/
def loopTrace (maxF r0 f : Nat) (items : List (List Attempt)) : List Event :=
  .queryQuota r0 :: (loopRun maxF f items).1

/-- Evolution of the consecutive-failure counter for a single attempt. -/
def stepF (f : Nat) (a : Attempt) : Nat := (runAttempt f a).2.1

theorem itemRun_single (maxF f : Nat) (a : Attempt) (hf : f < maxF) :
    itemRun maxF f [a] = ((runAttempt f a).1, stepF f a) := by
  cases a <;> simp [itemRun, runAttempt, stepF, hf]

theorem loopAborted_single_iff (maxF : Nat) :
    ∀ (items : List Attempt) (f : Nat), f < maxF →
      (loopAborted maxF f (items.map (fun a => [a])) = true ↔
        ∃ p, p <+: items ∧ maxF ≤ List.foldl stepF f p) := by
  intro items
  induction items with
  | nil =>
    intro f hf
    simp only [List.map_nil, loopAborted, loopRun]
    constructor
    · intro h; exact absurd h (by simp)
    · rintro ⟨p, hp, hfold⟩
      rw [List.prefix_nil.mp hp] at hfold
      simp at hfold
      omega
  | cons a rest ih =>
    intro f hf
    have hsingle := itemRun_single maxF f a hf
    by_cases hab : maxF ≤ stepF f a
    · constructor
      · intro _
        exact ⟨[a], ⟨rest, rfl⟩, by simpa using hab⟩
      · intro _
        simp only [List.map_cons, loopAborted, loopRun, hsingle]
        simp [hab]
    · have hrec : loopAborted maxF f ((a :: rest).map (fun a => [a]))
          = loopAborted maxF (stepF f a) (rest.map (fun a => [a])) := by
        simp only [List.map_cons, loopAborted, loopRun, hsingle]
        simp [hab, loopAborted]
      rw [hrec, ih (stepF f a) (by omega)]
      constructor
      · rintro ⟨p, hp, hfold⟩
        exact ⟨a :: p, List.cons_prefix_cons.mpr ⟨rfl, hp⟩, by simpa using hfold⟩
      · rintro ⟨p, hp, hfold⟩
        cases p with
        | nil => simp at hfold; omega
        | cons b q =>
          obtain ⟨rfl, hq⟩ := List.cons_prefix_cons.mp hp
          exact ⟨q, hq, by simpa using hfold⟩

/-- C2: Failure ceiling.  Over any sequence of per-item outcomes, the sweep
aborts exactly when some prefix drives the consecutive-failure counter
(reset to zero by a success, incremented by a counted failure) up to the
ceiling 10; a single success resets the counter; ceiling-many consecutive
unexpected failures — or a single item retried transiently ceiling-many
times — abort, while ceiling-minus-one consecutive failures followed by a
success leave the sweep running with the counter back at zero. -/
theorem c2_failure_ceiling :
    ∀ items : List Attempt,
      (loopAborted maxFailures 0 (items.map (fun a => [a])) = true ↔
        ∃ p, p <+: items ∧ maxFailures ≤ List.foldl stepF 0 p)
      ∧ (∀ f : Nat, stepF f .success = 0)
      ∧ loopAborted maxFailures 0
          ((List.replicate maxFailures Attempt.unexpectedErr).map (fun a => [a])) = true
      ∧ loopAborted maxFailures 0 [List.replicate maxFailures Attempt.transientErr] = true
      ∧ loopAborted maxFailures 0
          (((List.replicate (maxFailures - 1) Attempt.unexpectedErr).map (fun a => [a]))
            ++ [[Attempt.success]]) = false
      ∧ (loopRun maxFailures 0
          (((List.replicate (maxFailures - 1) Attempt.unexpectedErr).map (fun a => [a]))
            ++ [[Attempt.success]])).2.1 = 0 := by
  intro items
  exact ⟨loopAborted_single_iff maxFailures items 0 (by decide), fun f => rfl,
    by decide, by decide, by decide, by decide⟩

/-- Witness for C2: ten consecutive unexpected failures abort the sweep,
via the ceiling characterization. -/
theorem c2_failure_ceiling_witness :
    loopAborted maxFailures 0
      ((List.replicate 10 Attempt.unexpectedErr).map (fun a => [a])) = true :=
  ((c2_failure_ceiling (List.replicate 10 Attempt.unexpectedErr)).1).mpr
    ⟨List.replicate 10 Attempt.unexpectedErr, List.prefix_refl _, by decide⟩

/-! ### C3: quota respect -/

/-- An event that clears "quota known exhausted": an actual wait for the
reset, or a fresh quota query reporting calls remaining. -/
def clearsKnownExhaustion : Event → Bool
  | .waitReset => true
  | .queryQuota r => decide (1 ≤ r)
  | .attempt => false

/-- The claimed property: whenever the rate governor reports zero remaining
calls, no per-item operation is attempted before a wait for the reset (or a
fresh query showing calls remaining). -/
def quotaRespect (tr : List Event) : Prop :=
  ∀ i j : Fin tr.length, i.val < j.val →
    tr.get i = .queryQuota 0 → tr.get j = .attempt →
    ∃ k : Fin tr.length, i.val < k.val ∧ k.val < j.val
      ∧ clearsKnownExhaustion (tr.get k) = true

instance (tr : List Event) : Decidable (quotaRespect tr) := by
  unfold quotaRespect
  infer_instance

/-- Scans a trace checking: every quota query that reports fewer than one
remaining call is immediately followed by a wait-for-reset. -/
def handlerWaitsB : List Event → Bool
  | [] => true
  | .queryQuota 0 :: rest =>
      (match rest with
       | .waitReset :: _ => handlerWaitsB rest
       | _ => false)
  | .queryQuota (_ + 1) :: rest => handlerWaitsB rest
  | .waitReset :: rest => handlerWaitsB rest
  | .attempt :: rest => handlerWaitsB rest

theorem handlerWaitsB_tail {e : Event} {rest : List Event}
    (h : handlerWaitsB (e :: rest) = true) : handlerWaitsB rest = true := by
  cases e with
  | queryQuota r =>
    cases r with
    | zero =>
      cases rest with
      | nil => simp [handlerWaitsB] at h
      | cons e' rest' =>
        cases e' with
        | waitReset => exact h
        | queryQuota r' => simp [handlerWaitsB] at h
        | attempt => simp [handlerWaitsB] at h
    | succ n => exact h
  | waitReset => exact h
  | attempt => exact h

theorem handlerWaitsB_append {es es₂ : List Event} (h1 : handlerWaitsB es = true)
    (h2 : handlerWaitsB es₂ = true) : handlerWaitsB (es ++ es₂) = true := by
  induction es with
  | nil => simpa
  | cons e rest ih =>
    have hrest := handlerWaitsB_tail h1
    cases e with
    | queryQuota r =>
      cases r with
      | zero =>
        cases rest with
        | nil => simp [handlerWaitsB] at h1
        | cons e' rest' =>
          cases e' with
          | waitReset =>
            show handlerWaitsB (.queryQuota 0 :: .waitReset :: (rest' ++ es₂)) = true
            exact ih hrest
          | queryQuota r' => simp [handlerWaitsB] at h1
          | attempt => simp [handlerWaitsB] at h1
      | succ n => exact ih hrest
    | waitReset => exact ih hrest
    | attempt => exact ih hrest

theorem handlerWaitsB_runAttempt (f : Nat) (a : Attempt) :
    handlerWaitsB (runAttempt f a).1 = true := by
  cases a with
  | err403 r =>
    cases r with
    | zero => rfl
    | succ n => simp [runAttempt, handlerWaitsB]
  | success => rfl
  | err451 => rfl
  | transientErr => rfl
  | unexpectedErr => rfl
  | stopIter => rfl

theorem handlerWaitsB_itemRun (maxF : Nat) :
    ∀ (it : List Attempt) (f : Nat), handlerWaitsB (itemRun maxF f it).1 = true := by
  intro it
  induction it with
  | nil => intro f; simp [itemRun, handlerWaitsB]
  | cons a rest ih =>
    intro f
    simp only [itemRun]
    by_cases hf : f < maxF
    · simp only [if_pos hf]
      by_cases hr : (runAttempt f a).2.2
      · simp only [hr, if_pos]
        exact handlerWaitsB_append (handlerWaitsB_runAttempt f a) (ih _)
      · simp only [hr]
        simp [handlerWaitsB_runAttempt f a]
    · simp [if_neg hf, handlerWaitsB]

theorem handlerWaitsB_loopRun (maxF : Nat) :
    ∀ (items : List (List Attempt)) (f : Nat),
      handlerWaitsB (loopRun maxF f items).1 = true := by
  intro items
  induction items with
  | nil => intro f; simp [loopRun, handlerWaitsB]
  | cons it rest ih =>
    intro f
    simp only [loopRun]
    by_cases hab : maxF ≤ (itemRun maxF f it).2
    · simp only [if_pos hab]
      exact handlerWaitsB_itemRun maxF it f
    · simp only [if_neg hab]
      exact handlerWaitsB_append (handlerWaitsB_itemRun maxF it f) (ih _)

theorem handlerWaitsB_next_wait :
    ∀ (tr : List Event), handlerWaitsB tr = true →
      ∀ (i : Fin tr.length) (r : Nat), tr.get i = .queryQuota r → r < 1 →
        ∃ h : i.val + 1 < tr.length, tr.get ⟨i.val + 1, h⟩ = .waitReset := by
  intro tr
  induction tr with
  | nil => intro _ i; exact absurd i.isLt (by simp)
  | cons e rest ih =>
    intro h i r hget hr
    have hr0 : r = 0 := by omega
    subst hr0
    match i with
    | ⟨0, h0⟩ =>
      simp only [List.get] at hget
      subst hget
      cases rest with
      | nil => simp [handlerWaitsB] at h
      | cons e' rest' =>
        cases e' with
        | waitReset => exact ⟨by simp, rfl⟩
        | queryQuota r' => simp [handlerWaitsB] at h
        | attempt => simp [handlerWaitsB] at h
    | ⟨j + 1, hj⟩ =>
      have hrest : handlerWaitsB rest = true := handlerWaitsB_tail h
      have hget' : rest.get ⟨j, Nat.lt_of_succ_lt_succ hj⟩ = .queryQuota 0 := hget
      obtain ⟨h2, hw⟩ := ih hrest ⟨j, Nat.lt_of_succ_lt_succ hj⟩ 0 hget' (by omega)
      exact ⟨Nat.succ_lt_succ h2, hw⟩

/-- C3 counterexample: the loop only consults the rate governor reactively.
The informational `api_calls_left()` query at loop start can report zero
remaining calls and the first item's operation is still attempted, with no
intervening wait — refuting "no per-item operation is ever attempted while
the quota is known to be exhausted". -/
theorem c3_counterexample :
    ¬ quotaRespect (loopTrace maxFailures 0 0 [[Attempt.success]]) := by
  decide

/-- C3 (amended): quota respect holds for the reactive 403 handler — in
every execution, every quota query (beyond the initial informational one)
that reports fewer than one remaining call is immediately followed by a
wait for the quota reset, before any further per-item operation. -/
theorem c3_quota_wait_amended (maxF r0 f : Nat) (items : List (List Attempt)) :
    loopTrace maxF r0 f items = .queryQuota r0 :: (loopRun maxF f items).1
    ∧ handlerWaitsB ((loopRun maxF f items).1) = true
    ∧ ∀ (i : Fin (loopRun maxF f items).1.length) (r : Nat),
        (loopRun maxF f items).1.get i = .queryQuota r → r < 1 →
        ∃ h : i.val + 1 < (loopRun maxF f items).1.length,
          (loopRun maxF f items).1.get ⟨i.val + 1, h⟩ = .waitReset :=
  ⟨rfl, handlerWaitsB_loopRun maxF items f,
    handlerWaitsB_next_wait _ (handlerWaitsB_loopRun maxF items f)⟩

/-- Witness for C3 (amended): an execution in which the 403 handler observes
an exhausted quota waits before retrying. -/
theorem c3_quota_wait_amended_witness :
    ∃ h : (1 : Nat) + 1 < (loopRun maxFailures 0 [[Attempt.err403 0, Attempt.success]]).1.length,
      (loopRun maxFailures 0 [[Attempt.err403 0, Attempt.success]]).1.get ⟨1 + 1, h⟩
        = .waitReset :=
  (c3_quota_wait_amended maxFailures 0 0 [[Attempt.err403 0, Attempt.success]]).2.2
    ⟨1, by decide⟩ 0 (by decide) (by decide)

end Collector

/-! ## Field resolution, backfill bodies, and store updates -/

namespace Collector

/-- CPython `str.find(needle, start)` over character lists: smallest index
`i ≥ start` (after Python's negative-start normalization) at which `needle`
occurs, or `-1`. -/
def pyFind (hay needle : List Char) (start : Int) : Int :=
  let s : Nat := (if start < 0 then (hay.length : Int) + start else start).toNat
  match ((List.range (hay.length + 1)).filter
      (fun i => s ≤ i && needle.isPrefixOf (hay.drop i))).head? with
  | some i => (i : Int)
  | none => -1

/-- Python slice-index normalization: negative indices count from the end,
and out-of-range indices are clamped. -/
def pyIndexClamp (len : Nat) (i : Int) : Nat :=
  (if i < 0 then max ((len : Int) + i) 0 else min i (len : Int)).toNat

/-- Python `s[a:b]` over character lists. -/
def pySlice (l : List Char) (a b : Int) : List Char :=
  let a' := pyIndexClamp l.length a
  let b' := pyIndexClamp l.length b
  (l.drop a').take (b' - a')

/-- Python `str.strip()` (whitespace from both ends). -/
def pyStrip (s : List Char) : List Char :=
  ((s.dropWhile Char.isWhitespace).reverse.dropWhile Char.isWhitespace).reverse


end Collector

namespace Collector

/-- The Python value returned by `extract_languages_from_html`:
`False` or a list of language names. -/
inductive PyLangs where
  | falseV
  | listV (l : List (List Char))
  deriving Repr, DecidableEq

/-- The Python value held by `fork_info`: `None`, `False`, `True`,
or a repo-path string. -/
inductive ForkVal where
  | noneV
  | falseV
  | trueV
  | strV (s : List Char)
  deriving Repr, DecidableEq

/-- The Python value held by `description`: `None`, `False`, or a string. -/
inductive DescVal where
  | noneV
  | falseV
  | strV (s : List Char)
  deriving Repr, DecidableEq

def langMarker : List Char := "class=\"lang\">".toList

/-- The `while startpoint > 0` scan of `extract_languages_from_html`,
with fuel bounding the iteration count (each iteration strictly advances
the scan position, so `html.length + 1` fuel is enough). -/
def extractLangsLoop (html : List Char) : Nat → Int → List (List Char) → List (List Char)
  | 0, _, acc => acc.reverse
  | fuel + 1, startpoint, acc =>
      if startpoint > 0 then
        let endpoint := pyFind html ['<'] startpoint
        let lang := pySlice html (startpoint + (langMarker.length : Int)) endpoint
        extractLangsLoop html fuel (pyFind html langMarker endpoint) (lang :: acc)
      else acc.reverse

/-- `GitHubIndexer.extract_languages_from_html`. -/
def extract_languages_from_html (html : List Char) : PyLangs :=
  if html = [] then .falseV
  else
    let languages := extractLangsLoop html (html.length + 1) (pyFind html langMarker 0) []
    let other := "Other".toList
    .listV (if other ∈ languages then languages.erase other else languages)

def forkFlagMarker : List Char := "<span class=\"fork-flag\">".toList
def forkTextMarker : List Char := "<span class=\"text\">forked from <a href=\"".toList

/-- `GitHubIndexer.extract_fork_from_html`. -/
def extract_fork_from_html (html : List Char) : ForkVal :=
  if html = [] then .falseV
  else
    let spanstart := pyFind html forkFlagMarker 0
    if spanstart > 0 then
      let startpoint := pyFind html forkTextMarker spanstart
      if startpoint > 0 then
        let endpoint := pyFind html ['"'] (startpoint + (forkTextMarker.length : Int))
        .strV (pySlice html (startpoint + (forkTextMarker.length : Int) + 1) endpoint)
      else .trueV
    else .falseV

def descMarker : List Char := "itemprop=\"about\">".toList

/-- `GitHubIndexer.extract_description_from_html`. -/
def extract_description_from_html (html : List Char) : DescVal :=
  if html = [] then .falseV
  else
    let startpoint := pyFind html descMarker 0
    let description :=
      if startpoint > 0 then
        pySlice html (startpoint + (descMarker.length : Int)) (pyFind html "</span>".toList startpoint)
      else []
    if description ≠ [] then .strV (pyStrip description) else .noneV

def emptyRepoMarker : List Char := "<h3>This repository is empty.</h3>".toList

/-- `GitHubIndexer.extract_empty_from_html`. -/
def extract_empty_from_html (html : List Char) : Bool :=
  if html = [] then false else pyFind html emptyRepoMarker 0 > 0


end Collector

namespace Collector

inductive PyError2 where
  | typeError
  | valueError
  deriving Repr, DecidableEq

/-- A stored `{'name': lang}` pair in an entry's `languages` list. -/
structure LangEntry where
  name : List Char
  deriving Repr, DecidableEq

/-- `entry['languages']`: a list of language dicts (`[]` = never attempted)
or the sentinel `-1` (attempted, none found). -/
inductive LangsField where
  | lst (l : List LangEntry)
  | neg1
  deriving Repr, DecidableEq

/-- `entry['readme']`: a string (`''` = never attempted) or the sentinel
`-1` (attempted, absent). -/
inductive ReadmeField where
  | str (s : List Char)
  | neg1
  deriving Repr, DecidableEq

/-- `entry['fork']`: `False` or a `{'parent':…, 'root':…}` dict. -/
inductive ForkField where
  | fls
  | dict (parent root : List Char)
  deriving Repr, DecidableEq

/-- `entry['files']`: a list of paths or the sentinel `-1`. -/
inductive FilesField where
  | lst (l : List (List Char))
  | neg1
  deriving Repr, DecidableEq

structure TimeInfo where
  repo_created : Int
  repo_updated : Int
  repo_pushed : Int
  data_refreshed : Int
  deriving Repr, DecidableEq

/-- One repository entry of the `github.repos` collection. -/
structure Entry where
  eid : Nat
  owner : List Char
  name : List Char
  description : Option (List Char)
  default_branch : List Char
  homepage : Option (List Char)
  languages : LangsField
  readme : ReadmeField
  files : FilesField
  fork : ForkField
  content_type : List Char
  is_visible : Bool
  is_deleted : Bool
  time : TimeInfo
  deriving Repr, DecidableEq

/-- A `github3` repository object, as used by the indexer. -/
structure Repo where
  id : Nat
  owner_login : List Char
  name : List Char
  description : Option (List Char)
  default_branch : List Char
  homepage : Option (List Char)
  is_private : Bool
  fork : Bool
  parent : Option (List Char)
  source : Option (List Char)
  language : Option (List Char)
  size : Nat
  created_at : Int
  updated_at : Int
  pushed_at : Int
  deriving Repr, DecidableEq

/-- A writable entry field together with its new value, as passed to
`GitHubIndexer.update_field`. -/
inductive FieldVal where
  | languages (v : LangsField)
  | readme (v : ReadmeField)
  | owner (v : List Char)
  | name (v : List Char)
  | is_visible (v : Bool)
  | is_deleted (v : Bool)
  | fork (v : ForkField)
  | description (v : Option (List Char))
  | content_type (v : List Char)
  | files (v : FilesField)
  deriving Repr, DecidableEq

/-- `entry[field] = value`. -/
def setField (e : Entry) : FieldVal → Entry
  | .languages v => { e with languages := v }
  | .readme v => { e with readme := v }
  | .owner v => { e with owner := v }
  | .name v => { e with name := v }
  | .is_visible v => { e with is_visible := v }
  | .is_deleted v => { e with is_deleted := v }
  | .fork v => { e with fork := v }
  | .description v => { e with description := v }
  | .content_type v => { e with content_type := v }
  | .files v => { e with files := v }

/-- `GitHubIndexer.update_field`: one `$set` write updating the field and
`time.data_refreshed` together. -/
def update_field (e : Entry) (fv : FieldVal) (now : Int) : Entry :=
  let e' := setField e fv
  { e' with time := { e'.time with data_refreshed := now } }

/-- `GitHubIndexer.update_fork_field`. -/
def update_fork_field (e : Entry) (fork_parent fork_root : List Char) (now : Int) : Entry :=
  let newFork : ForkField :=
    match e.fork with
    | .dict p r =>
        .dict (if fork_parent ≠ [] then fork_parent else p)
              (if fork_root ≠ [] then fork_root else r)
    | .fls => .dict fork_parent fork_root
  update_field e (.fork newFork) now

/-- `make_lang_dict`. -/
def make_lang_dict (langs : List (List Char)) : List LangEntry :=
  langs.map (fun l => ⟨l⟩)

/-- `GitHubIndexer.update_entry_from_github3`: refreshes an entry from live
github3 data; purposefully does not overwrite `languages`/`readme` content. -/
def update_entry_from_github3 (e : Entry) (repo : Repo) (now : Int) : Entry :=
  let e := { e with
    owner := repo.owner_login
    name := repo.name
    description := repo.description
    default_branch := repo.default_branch
    homepage := repo.homepage
    is_visible := !repo.is_private
    is_deleted := false }
  let e :=
    match repo.language with
    | some lang =>
        if lang ≠ [] ∧ (e.languages = LangsField.lst [] ∨ e.languages = LangsField.neg1) then
          { e with languages := .lst [⟨lang⟩] }
        else e
    | none => e
  let e :=
    if repo.fork then
      { e with fork := .dict (repo.parent.getD []) (repo.source.getD []) }
    else { e with fork := .fls }
  let e := { e with time :=
    { repo_created := repo.created_at
      repo_updated := repo.updated_at
      repo_pushed := repo.pushed_at
      data_refreshed := now } }
  if repo.size > 0 ∧ e.content_type = [] then { e with content_type := "nonempty".toList }
  else e

end Collector

namespace Collector

/-- Result source of a field-resolver call. -/
inductive Method where
  | http
  | api
  deriving Repr, DecidableEq

/-- Possible results of `direct_api_call` on the `/languages` endpoint:
decoded-and-parsed language names, undecodable content (`''`, which
`json.loads` rejects), a non-2xx status returned as an `int`, or `None`
(connection failure). -/
inductive ApiLangs where
  | ok (langs : List (List Char))
  | emptyContent
  | status (code : Nat)
  | connFail
  deriving Repr, DecidableEq

/-- A Python value that is either a string, an `int` HTTP status, or
`None` — the value domain of `direct_api_call` results. -/
inductive RVal where
  | strV (s : List Char)
  | intV (code : Nat)
  | noneV
  deriving Repr, DecidableEq

/-- A `requests.get` response (status, body, content-length header). -/
structure RawResp where
  status : Nat
  text : List Char
  contentLength : Nat
  deriving Repr, DecidableEq

/-- Oracle for the network: home-page scrapes, the direct API endpoints
used by the resolvers, raw-file GETs, and `github().repository` lookups. -/
structure Env where
  homePage : List Char → List Char → (Nat × List Char)
  apiLanguages : List Char → List Char → ApiLangs
  rawGet : List Char → RawResp
  apiReadme : List Char → List Char → RVal
  apiStats : List Char → List Char → RVal
  repoLookup : List Char → List Char → Option Repo

/-- Return value of `GitHubIndexer.get_languages`. -/
structure GLRes where
  found : Bool
  method : Method
  langs : List (List Char)
  fork : ForkVal
  description : DescVal
  deriving Repr, DecidableEq

/-- `GitHubIndexer.get_languages`, paired with the number of quota-consuming
direct API calls it performs. -/
def get_languages (env : Env) (e : Entry) : Except PyError2 (GLRes × Nat) :=
  let (code, html) := env.homePage e.owner e.name
  if code = 404 ∨ code = 451 then
    .ok (⟨false, .http, [], .noneV, .noneV⟩, 0)
  else
    let languages : List (List Char) :=
      if html ≠ [] then
        match extract_languages_from_html html with
        | .listV l => l
        | .falseV => []
      else []
    let fork_info := if html ≠ [] then extract_fork_from_html html else .noneV
    let description := if html ≠ [] then extract_description_from_html html else .noneV
    if html ≠ [] ∧ languages ≠ [] then
      .ok (⟨true, .http, languages, fork_info, description⟩, 0)
    else
      match env.apiLanguages e.owner e.name with
      | .status n =>
          if n ≥ 400 then .ok (⟨false, .api, [], fork_info, description⟩, 1)
          else .error .typeError
      | .connFail => .ok (⟨true, .api, [], fork_info, description⟩, 1)
      | .emptyContent => .error .valueError
      | .ok langs => .ok (⟨true, .api, langs, fork_info, description⟩, 1)

def slashChar : List Char := "/".toList

/-- `e_path`. -/
def e_path (e : Entry) : List Char := e.owner ++ slashChar ++ e.name

/-- The `readme_file` selection loop of `get_readme`: the first file that
matches any of the README patterns. -/
def readmeMatch (f : List Char) : Bool :=
  f = "README.md".toList
  || ("README.".toList.isPrefixOf f && f ≠ "README.txt".toList)
  || f = "README".toList
  || f = "README.txt".toList

def rawBase : List Char := "https://raw.githubusercontent.com/".toList

/-- The raw-file URL `base_url + '/' + branch + '/' + readme_file` used by
`get_readme` when the entry's file list names a README. -/
def readme_file_url (e : Entry) (rf : List Char) : List Char :=
  rawBase ++ e_path e ++ slashChar
    ++ (if e.default_branch ≠ [] then e.default_branch else "master".toList)
    ++ slashChar ++ rf

/-- The alternative raw-file URL `base_url + '/master/README' + ext` probed
when the entry's file list is unknown. -/
def readme_alt_url (e : Entry) (ext : List Char) : List Char :=
  rawBase ++ e_path e ++ "/master/README".toList ++ ext

def readmeExts : List (List Char) :=
  ["".toList, ".md".toList, ".txt".toList, ".markdown".toList, ".rdoc".toList, ".rst".toList]

/-- `GitHubIndexer.get_readme`, paired with the number of quota-consuming
direct API calls it performs.  (Iterating `entry['files']` when the field
holds the `-1` sentinel raises a `TypeError`.) -/
def get_readme (env : Env) (e : Entry) (prefer_http api_only : Bool) :
    Except PyError2 ((Method × RVal) × Nat) :=
  let viaApi : Except PyError2 ((Method × RVal) × Nat) :=
    if prefer_http then .ok ((.http, .noneV), 0)
    else .ok ((.api, env.apiReadme e.owner e.name), 1)
  if api_only then viaApi
  else
    match e.files with
    | .neg1 => .error .typeError
    | .lst files =>
      let readme_file := files.find? readmeMatch
      match readme_file with
      | some rf =>
          let r := env.rawGet (readme_file_url e rf)
          if r.status = 200 then
            if r.contentLength > 5242880 then .ok ((.http, .strV []), 0)
            else .ok ((.http, .strV r.text), 0)
          else viaApi
      | none =>
          if files ≠ [] then .ok ((.http, .noneV), 0)
          else
            match readmeExts.find?
                (fun ext => (env.rawGet (readme_alt_url e ext)).status = 200) with
            | some ext => .ok ((.http, .strV (env.rawGet (readme_alt_url e ext)).text), 0)
            | none => viaApi

/-- The tail of `check_empty` after the scrape stage: the `prefer_http`
early return, else the `/stats/contributors` API probe. -/
def check_empty_rest (env : Env) (e : Entry) (prefer_http : Bool) :
    (Method × Bool × Bool) × Nat :=
  if prefer_http then ((.http, false, true), 0)
  else
    match env.apiStats e.owner e.name with
    | .intV n =>
        if n ≥ 400 then ((.api, false, true), 1)
        else ((.api, true, decide (n ≠ 204)), 1)
    | .noneV => ((.api, false, true), 1)
    | .strV _ => ((.api, true, true), 1)

/-- `GitHubIndexer.check_empty`, paired with the number of quota-consuming
direct API calls it performs.  Returns `(method, tested, empty)`. -/
def check_empty (env : Env) (e : Entry) (prefer_http api_only : Bool)
    (html0 : Option (List Char)) : (Method × Bool × Bool) × Nat :=
  if ¬api_only then
    if html0.getD [] = [] then
      let (code, html) := env.homePage e.owner e.name
      if code = 404 ∨ code = 451 then ((.http, false, true), 0)
      else if html ≠ [] then ((.http, true, extract_empty_from_html html), 0)
      else check_empty_rest env e prefer_http
    else ((.http, true, extract_empty_from_html (html0.getD [])), 0)
  else check_empty_rest env e prefer_http

end Collector

namespace Collector

/-- Python truthiness of a `fork_info` value. -/
def ForkVal.truthy : ForkVal → Bool
  | .trueV => true
  | .strV s => s ≠ []
  | _ => false

/-- Python truthiness of a `description` value. -/
def DescVal.truthy : DescVal → Bool
  | .strV s => s ≠ []
  | _ => false

/-- Errors escaping a per-item body: an ordinary Python exception, or an
explicitly `raise`d `DirectAPIException` carrying an HTTP code. -/
inductive BodyErr where
  | py (err : PyError2)
  | directAPIExc (code : Nat)
  deriving Repr, DecidableEq

/-- Outcome of one backfill body invocation: the resulting entry, the
sequence of `update_field` writes it performed, and how many times it
called the field resolver and the authoritative `github().repository`
identity lookup. -/
structure BodyResult where
  entry : Entry
  writes : List FieldVal
  resolverCalls : Nat
  idLookups : Nat
  deriving Repr, DecidableEq

/-- The `if fork:` block of `add_languages`'s body: a string updates the
fork field; a bare `True` keeps an existing parent, else records an empty
fork dict; subscripting `entry['fork']['parent']` when the field is `False`
raises. -/
def add_languages_fork_step (e : Entry) (ws : List FieldVal) (fork : ForkVal) (now : Int) :
    Except BodyErr (Entry × List FieldVal) :=
  if fork.truthy then
    match fork with
    | .strV s =>
        let e' := update_fork_field e s [] now
        .ok (e', ws ++ [FieldVal.fork e'.fork])
    | .trueV =>
        match e.fork with
        | .fls => .error (.py .typeError)
        | .dict p _ =>
            if p ≠ [] then .ok (e, ws)
            else
              let e' := update_fork_field e [] [] now
              .ok (e', ws ++ [FieldVal.fork e'.fork])
    | _ => .ok (e, ws)
  else .ok (e, ws)

/-- The `if desc:` step of `add_languages`'s body. -/
def add_languages_desc_step (e : Entry) (ws : List FieldVal) (desc : DescVal) (now : Int) :
    Entry × List FieldVal :=
  match desc with
  | .strV s =>
      if s ≠ [] then
        (update_field e (.description (some s)) now, ws ++ [FieldVal.description (some s)])
      else (e, ws)
  | _ => (e, ws)

/-- The tail of `add_languages`'s `body_function` from `if not entry['is_deleted']`
on: stores the resolved languages (or the `-1` sentinel), description, fork
info, and marks the entry visible. -/
def add_languages_finish (e : Entry) (ws : List FieldVal) (resolverCalls idLookups : Nat)
    (r : GLRes) (now : Int) : Except BodyErr BodyResult :=
  if e.is_deleted then .ok ⟨e, ws, resolverCalls, idLookups⟩
  else
    let langWrite : FieldVal :=
      if r.langs ≠ [] then .languages (.lst (make_lang_dict r.langs)) else .languages .neg1
    let e := update_field e langWrite now
    let ws := ws ++ [langWrite]
    let (e, ws) := add_languages_desc_step e ws r.description now
    match add_languages_fork_step e ws r.fork now with
    | .error err => .error err
    | .ok (e, ws) =>
        .ok ⟨update_field e (.is_visible true) now, ws ++ [.is_visible true],
             resolverCalls, idLookups⟩

/-- `add_languages`'s `body_function`: resolve languages; on failure, one
authoritative identity lookup; on identity drift, update owner/name and
retry the resolver exactly once. -/
def add_languages_body (env : Env) (e : Entry) (now : Int) : Except BodyErr BodyResult :=
  match get_languages env e with
  | .error err => .error (.py err)
  | .ok (r1, _) =>
    if r1.found then add_languages_finish e [] 1 0 r1 now
    else
      match env.repoLookup e.owner e.name with
      | none =>
          let e1 := update_field e (.is_deleted true) now
          let e2 := update_field e1 (.is_visible false) now
          -- found = True, but the entry is now marked deleted, so the
          -- `if not entry['is_deleted']` block is skipped
          add_languages_finish e2 [.is_deleted true, .is_visible false] 1 1 r1 now
      | some repo =>
          if repo.owner_login ≠ e.owner ∨ repo.name ≠ e.name then
            let e1 := update_field e (.owner repo.owner_login) now
            let e2 := update_field e1 (.name repo.name) now
            let ws := [FieldVal.owner repo.owner_login, FieldVal.name repo.name]
            match get_languages env e2 with
            | .error err => .error (.py err)
            | .ok (r2, _) =>
                if r2.found then add_languages_finish e2 ws 2 1 r2 now
                else .ok ⟨e2, ws, 2, 1⟩       -- second attempt failed: bail
          else
            let e1 := update_field e (.is_visible false) now
            .ok ⟨e1, [.is_visible false], 1, 1⟩

/-- The final `if readme != None and not isinstance(readme, int)` store step
of `add_readmes`'s body, followed by `update_field(entry, 'is_visible', True)`. -/
def add_readmes_store (e : Entry) (ws : List FieldVal) (resolverCalls idLookups : Nat)
    (readme : RVal) (now : Int) : Except BodyErr BodyResult :=
  let (e, ws) :=
    match readme with
    | .strV s => (update_field e (.readme (.str s)) now, ws ++ [FieldVal.readme (.str s)])
    | _ => (update_field e (.readme .neg1) now, ws ++ [FieldVal.readme .neg1])
  .ok ⟨update_field e (.is_visible true) now, ws ++ [.is_visible true],
       resolverCalls, idLookups⟩

/-- `add_readmes`'s `body_function`. -/
def add_readmes_body (env : Env) (e : Entry) (prefer_http api_only : Bool) (now : Int) :
    Except BodyErr BodyResult :=
  if e.is_visible = false then .ok ⟨e, [], 0, 0⟩
  else
    match get_readme env e prefer_http api_only with
    | .error err => .error (.py err)
    | .ok ((_, readme1), _) =>
      if readme1 = .intV 403 ∨ readme1 = .intV 451 then
        .error (.directAPIExc (match readme1 with | .intV c => c | _ => 0))
      else
        match readme1 with
        | .intV c =>
          if c ≥ 400 then
            if api_only ∨ prefer_http then
              .ok ⟨update_field e (.readme .neg1) now, [.readme .neg1], 1, 0⟩
            else
              match env.repoLookup e.owner e.name with
              | none =>
                  let e1 := update_field e (.is_deleted true) now
                  let e2 := update_field e1 (.is_visible false) now
                  .ok ⟨e2, [.is_deleted true, .is_visible false], 1, 1⟩
              | some repo =>
                  if repo.owner_login ≠ e.owner ∨ repo.name ≠ e.name then
                    let e1 := update_field e (.owner repo.owner_login) now
                    let e2 := update_field e1 (.name repo.name) now
                    let ws := [FieldVal.owner repo.owner_login, FieldVal.name repo.name]
                    match get_readme env e2 prefer_http api_only with
                    | .error err => .error (.py err)
                    | .ok ((_, readme2), _) => add_readmes_store e2 ws 2 1 readme2 now
                  else
                    -- unchanged identity: drop to the -1 case below
                    add_readmes_store e [] 1 1 readme1 now
          else add_readmes_store e [] 1 0 readme1 now
        | _ => add_readmes_store e [] 1 0 readme1 now

/-! ## C4, C5: source-priority of the field resolvers -/

/-- C4: Fallback ordering.  When the document-scrape path yields the
requested field — `get_languages` extracts a nonempty language list from a
fetched home page, or `get_readme` retrieves a README file over plain
HTTP — the resolver returns the scrape result tagged `http` and performs
zero quota-consuming API calls. -/
theorem c4_fallback_ordering :
    (∀ (env : Env) (e : Entry) (code : Nat) (html : List Char) (L : List (List Char)),
      env.homePage e.owner e.name = (code, html) →
      ¬(code = 404 ∨ code = 451) →
      html ≠ [] →
      extract_languages_from_html html = .listV L →
      L ≠ [] →
      get_languages env e
        = .ok (⟨true, .http, L, extract_fork_from_html html,
                extract_description_from_html html⟩, 0))
    ∧ (∀ (env : Env) (e : Entry) (prefer_http : Bool)
        (files : List (List Char)) (rf : List Char),
      e.files = .lst files →
      files.find? readmeMatch = some rf →
      (env.rawGet (readme_file_url e rf)).status = 200 →
      (env.rawGet (readme_file_url e rf)).contentLength ≤ 5242880 →
      get_readme env e prefer_http false
        = .ok ((.http, .strV (env.rawGet (readme_file_url e rf)).text), 0)) := by
  constructor
  · intro env e code html L hpage hcode hhtml hext hL
    unfold get_languages
    rw [hpage]
    simp only [if_neg hcode, hext, if_pos hhtml]
    simp [hhtml, hL]
  · intro env e prefer_http files rf hfiles hfind hstatus hlen
    unfold get_readme
    simp only [hfiles]
    simp only [hfind, hstatus, if_pos rfl, if_true]
    have : ¬ (env.rawGet (readme_file_url e rf)).contentLength > 5242880 := by omega
    simp [this]

/-- Environment for the C4 witness: a scrapeable home page and a fetchable
raw README. -/
def envC4 : Env :=
  { homePage := fun _ _ => (200, "x<span class=\"lang\">Python<".toList)
    apiLanguages := fun _ _ => .connFail
    rawGet := fun _ => ⟨200, "hello".toList, 5⟩
    apiReadme := fun _ _ => .noneV
    apiStats := fun _ _ => .noneV
    repoLookup := fun _ _ => none }

/-- Entry for the C4 witness, with a known `README.md` in its file list. -/
def entryC4 : Entry :=
  { eid := 1, owner := "o".toList, name := "n".toList, description := none
    default_branch := [], homepage := none, languages := .lst []
    readme := .str [], files := .lst ["README.md".toList], fork := .fls
    content_type := [], is_visible := true, is_deleted := false
    time := ⟨0, 0, 0, 0⟩ }

/-- Witness for C4 at a concrete environment and entry: both the language
scrape and the README fetch succeed over HTTP with zero API calls. -/
theorem c4_fallback_ordering_witness :
    (get_languages envC4 entryC4
      = .ok (⟨true, .http, ["Python".toList],
              extract_fork_from_html "x<span class=\"lang\">Python<".toList,
              extract_description_from_html "x<span class=\"lang\">Python<".toList⟩, 0))
    ∧ get_readme envC4 entryC4 false false
      = .ok ((.http, .strV (envC4.rawGet (readme_file_url entryC4 "README.md".toList)).text), 0) :=
  ⟨(c4_fallback_ordering).1 envC4 entryC4 200 "x<span class=\"lang\">Python<".toList
      ["Python".toList] rfl (by decide) (by decide) (by decide) (by decide),
   (c4_fallback_ordering).2 envC4 entryC4 false ["README.md".toList] "README.md".toList
      rfl (by decide) (by decide) (by decide)⟩

/-- C5: Terminal-negative short-circuit.  A home-page scrape returning 404
(gone) or 451 (legally blocked) makes `get_languages` and `check_empty`
return a terminal negative immediately, with zero API calls. -/
theorem c5_terminal_negative :
    (∀ (env : Env) (e : Entry) (code : Nat) (html : List Char),
      env.homePage e.owner e.name = (code, html) →
      (code = 404 ∨ code = 451) →
      get_languages env e = .ok (⟨false, .http, [], .noneV, .noneV⟩, 0))
    ∧ (∀ (env : Env) (e : Entry) (prefer_http : Bool) (code : Nat) (html : List Char),
      env.homePage e.owner e.name = (code, html) →
      (code = 404 ∨ code = 451) →
      check_empty env e prefer_http false none = ((.http, false, true), 0)) := by
  constructor
  · intro env e code html hpage hcode
    unfold get_languages
    rw [hpage]
    simp [hcode]
  · intro env e prefer_http code html hpage hcode
    unfold check_empty
    rw [hpage]
    simp [hcode]

/-- Environment for the C5 witness: the repository's home page is gone. -/
def envC5 : Env :=
  { homePage := fun _ _ => (404, [])
    apiLanguages := fun _ _ => .connFail
    rawGet := fun _ => ⟨404, [], 0⟩
    apiReadme := fun _ _ => .noneV
    apiStats := fun _ _ => .noneV
    repoLookup := fun _ _ => none }

/-- Entry for the C5 witness. -/
def entryC5 : Entry :=
  { eid := 1, owner := "o".toList, name := "n".toList, description := none
    default_branch := [], homepage := none, languages := .lst []
    readme := .str [], files := .lst [], fork := .fls, content_type := []
    is_visible := true, is_deleted := false
    time := ⟨0, 0, 0, 0⟩ }

/-- Witness for C5 at a concrete 404 environment. -/
theorem c5_terminal_negative_witness :
    get_languages envC5 entryC5 = .ok (⟨false, .http, [], .noneV, .noneV⟩, 0)
    ∧ check_empty envC5 entryC5 false false none = ((.http, false, true), 0) :=
  ⟨(c5_terminal_negative).1 envC5 entryC5 404 [] rfl (Or.inl rfl),
   (c5_terminal_negative).2 envC5 entryC5 false 404 [] rfl (Or.inl rfl)⟩


deriving instance DecidableEq for Except

/-- Home page served for the post-rename name in the C6 drift scenario. -/
def pageC6 : List Char := "x<span class=\"lang\">Python<".toList

/-- Environment for the C6 drift scenario: the stale name 404s, the
identity lookup reveals the new name `o/n2`, whose page then scrapes. -/
def envC6 : Env :=
  { homePage := fun _ name => if name = "n2".toList then (200, pageC6) else (404, [])
    apiLanguages := fun _ _ => .connFail
    rawGet := fun _ => ⟨404, [], 0⟩
    apiReadme := fun _ _ => .noneV
    apiStats := fun _ _ => .noneV
    repoLookup := fun _ _ => some
      { id := 7, owner_login := "o".toList, name := "n2".toList, description := none
        default_branch := [], homepage := none, is_private := false, fork := false
        parent := none, source := none, language := none, size := 1
        created_at := 0, updated_at := 0, pushed_at := 0 } }

/-- Entry for the C6 drift scenario, still holding the stale name `n1`. -/
def entryC6 : Entry :=
  { eid := 7, owner := "o".toList, name := "n1".toList, description := none
    default_branch := [], homepage := none, languages := .lst []
    readme := .str [], files := .lst [], fork := .fls, content_type := []
    is_visible := true, is_deleted := false
    time := ⟨0, 0, 0, 0⟩ }

/-! ## C6: identity-drift bounded retry -/

theorem add_languages_finish_counts {e : Entry} {ws : List FieldVal} {rc il : Nat}
    {r : GLRes} {now : Int} {res : BodyResult}
    (h : add_languages_finish e ws rc il r now = .ok res) :
    res.resolverCalls = rc ∧ res.idLookups = il := by
  unfold add_languages_finish at h
  split at h
  · cases h; exact ⟨rfl, rfl⟩
  · dsimp only at h
    split at h
    · exact absurd h (by simp)
    · cases h; exact ⟨rfl, rfl⟩

theorem add_readmes_store_counts {e : Entry} {ws : List FieldVal} {rc il : Nat}
    {readme : RVal} {now : Int} {res : BodyResult}
    (h : add_readmes_store e ws rc il readme now = .ok res) :
    res.resolverCalls = rc ∧ res.idLookups = il := by
  unfold add_readmes_store at h
  dsimp only at h
  split at h <;> (cases h; exact ⟨rfl, rfl⟩)

theorem add_languages_body_counts {env : Env} {e : Entry} {now : Int} {res : BodyResult}
    (h : add_languages_body env e now = .ok res) :
    res.resolverCalls ≤ 2 ∧ res.idLookups ≤ 1 := by
  unfold add_languages_body at h
  split at h
  · exact absurd h (by simp)
  · dsimp only at h
    split at h
    · obtain ⟨h1, h2⟩ := add_languages_finish_counts h; omega
    · split at h
      · obtain ⟨h1, h2⟩ := add_languages_finish_counts h; omega
      · split at h
        · split at h
          · exact absurd h (by simp)
          · split at h
            · obtain ⟨h1, h2⟩ := add_languages_finish_counts h; omega
            · cases h; exact ⟨by simp, by simp⟩
        · cases h; exact ⟨by simp, by simp⟩

theorem add_readmes_body_counts {env : Env} {e : Entry} {prefer_http api_only : Bool}
    {now : Int} {res : BodyResult}
    (h : add_readmes_body env e prefer_http api_only now = .ok res) :
    res.resolverCalls ≤ 2 ∧ res.idLookups ≤ 1 := by
  unfold add_readmes_body at h
  split at h
  · cases h; exact ⟨by simp, by simp⟩
  · split at h
    · exact absurd h (by simp)
    · dsimp only at h
      split at h
      · exact absurd h (by simp)
      · split at h
        · split at h
          · split at h
            · cases h; exact ⟨by simp, by simp⟩
            · split at h
              · cases h; exact ⟨by simp, by simp⟩
              · split at h
                · split at h
                  · exact absurd h (by simp)
                  · obtain ⟨h1, h2⟩ := add_readmes_store_counts h; omega
                · obtain ⟨h1, h2⟩ := add_readmes_store_counts h; omega
          · obtain ⟨h1, h2⟩ := add_readmes_store_counts h; omega
        · obtain ⟨h1, h2⟩ := add_readmes_store_counts h; omega

/-- C6: Identity-drift bounded retry.  The backfill bodies perform at most
two resolver calls and at most one authoritative identity lookup per item;
and on the exact drift path — first resolution fails, the identity lookup
returns a repository whose owner or name differs — the body updates the
stored owner/name and retries the resolver exactly once: a successful
second attempt proceeds to the store step with counts (2 resolver calls,
1 lookup), and a failed second attempt gives the item up with exactly the
owner/name writes. -/
theorem c6_identity_drift :
    (∀ (env : Env) (e : Entry) (now : Int) (res : BodyResult),
      add_languages_body env e now = .ok res →
        res.resolverCalls ≤ 2 ∧ res.idLookups ≤ 1)
    ∧ (∀ (env : Env) (e : Entry) (prefer_http api_only : Bool) (now : Int) (res : BodyResult),
      add_readmes_body env e prefer_http api_only now = .ok res →
        res.resolverCalls ≤ 2 ∧ res.idLookups ≤ 1)
    ∧ (∀ (env : Env) (e : Entry) (now : Int) (r1 : GLRes) (c1 : Nat) (repo : Repo),
      get_languages env e = .ok (r1, c1) →
      r1.found = false →
      env.repoLookup e.owner e.name = some repo →
      (repo.owner_login ≠ e.owner ∨ repo.name ≠ e.name) →
      ∀ (r2 : GLRes) (c2 : Nat),
        get_languages env
          (update_field (update_field e (.owner repo.owner_login) now)
            (.name repo.name) now) = .ok (r2, c2) →
        add_languages_body env e now =
          (if r2.found then
            add_languages_finish
              (update_field (update_field e (.owner repo.owner_login) now)
                (.name repo.name) now)
              [FieldVal.owner repo.owner_login, FieldVal.name repo.name] 2 1 r2 now
          else
            .ok ⟨update_field (update_field e (.owner repo.owner_login) now)
                  (.name repo.name) now,
                 [FieldVal.owner repo.owner_login, FieldVal.name repo.name], 2, 1⟩)) := by
  refine ⟨fun env e now res h => add_languages_body_counts h,
          fun env e ph ao now res h => add_readmes_body_counts h, ?_⟩
  intro env e now r1 c1 repo h1 hfound h2 h3 r2 c2 hr2
  unfold add_languages_body
  rw [h1]
  dsimp only
  rw [hfound]
  simp only [Bool.false_eq_true, if_false]
  rw [h2]
  dsimp only
  rw [if_pos h3, hr2]

/-- Witness for C6: a concrete drift scenario — stale name 404s, the lookup
reveals the new name, the retried resolution succeeds. -/
theorem c6_identity_drift_witness :
    add_languages_body envC6 entryC6 0 =
      add_languages_finish
        (update_field (update_field entryC6 (.owner "o".toList) 0) (.name "n2".toList) 0)
        [FieldVal.owner "o".toList, FieldVal.name "n2".toList] 2 1
        ⟨true, .http, ["Python".toList], extract_fork_from_html pageC6,
          extract_description_from_html pageC6⟩ 0 := by
  have h := (c6_identity_drift).2.2 envC6 entryC6 0
    ⟨false, .http, [], .noneV, .noneV⟩ 0
    { id := 7, owner_login := "o".toList, name := "n2".toList, description := none
      default_branch := [], homepage := none, is_private := false, fork := false
      parent := none, source := none, language := none, size := 1
      created_at := 0, updated_at := 0, pushed_at := 0 }
    (by decide) rfl rfl (by decide)
    ⟨true, .http, ["Python".toList], extract_fork_from_html pageC6,
      extract_description_from_html pageC6⟩ 0 (by decide)
  rw [h]
  rfl


/-! ## C7: field monotonicity for languages and readme -/

/-- Projection of a body outcome to the final `languages` field and the
number of identity lookups performed. -/
def bodyLangsAndLookups : Except BodyErr BodyResult → Option (LangsField × Nat)
  | .ok r => some (r.entry.languages, r.idLookups)
  | .error _ => none

/-- Environment for the C7 counterexample: the home page fetch returns an
empty body and the direct languages API call fails to connect, which
`get_languages` reports as found-with-no-languages. -/
def envC7 : Env :=
  { homePage := fun _ _ => (200, [])
    apiLanguages := fun _ _ => .connFail
    rawGet := fun _ => ⟨404, [], 0⟩
    apiReadme := fun _ _ => .noneV
    apiStats := fun _ _ => .noneV
    repoLookup := fun _ _ => none }

/-- An entry that already holds real languages content. -/
def entryC7 : Entry :=
  { eid := 9, owner := "o".toList, name := "n".toList, description := none
    default_branch := [], homepage := none
    languages := .lst [⟨"Python".toList⟩]
    readme := .str [], files := .lst [], fork := .fls, content_type := []
    is_visible := true, is_deleted := false
    time := ⟨0, 0, 0, 0⟩ }

/-- C7 counterexample: `add_languages`'s body, run on an entry whose stored
`languages` holds real content, replaces it with the attempted-and-absent
sentinel `-1` although no identity change was detected (zero identity
lookups) — refuting "a stored languages value that holds real content is
never replaced by the sentinel except on identity change". -/
theorem c7_counterexample :
    entryC7.languages = LangsField.lst [⟨"Python".toList⟩]
    ∧ bodyLangsAndLookups (add_languages_body envC7 entryC7 0)
        = some (LangsField.neg1, 0) := by
  decide

theorem add_languages_fork_step_writes {e : Entry} {ws : List FieldVal} {fork : ForkVal}
    {now : Int} {e' : Entry} {ws' : List FieldVal}
    (h : add_languages_fork_step e ws fork now = .ok (e', ws')) :
    ws' = ws ∨ ∃ v, ws' = ws ++ [FieldVal.fork v] := by
  unfold add_languages_fork_step at h
  split at h
  · split at h
    · cases h; exact Or.inr ⟨_, rfl⟩
    · split at h
      · exact absurd h (by simp)
      · split at h
        · cases h; exact Or.inl rfl
        · cases h; exact Or.inr ⟨_, rfl⟩
    · cases h; exact Or.inl rfl
  · cases h; exact Or.inl rfl

theorem add_languages_desc_step_writes {e : Entry} {ws : List FieldVal} {desc : DescVal}
    {now : Int} {e₁ : Entry} {ws₁ : List FieldVal}
    (h : add_languages_desc_step e ws desc now = (e₁, ws₁)) :
    ws₁ = ws ∨ ∃ s, ws₁ = ws ++ [FieldVal.description (some s)] := by
  unfold add_languages_desc_step at h
  split at h
  · split at h
    · cases h; exact Or.inr ⟨_, rfl⟩
    · cases h; exact Or.inl rfl
  · cases h; exact Or.inl rfl

/-- `add_languages_finish` records the `-1` languages sentinel only when the
resolver reported attempted-and-absent (no languages found) for an entry
that is not marked deleted. -/
theorem add_languages_finish_neg1 {e : Entry} {ws : List FieldVal} {rc il : Nat}
    {r : GLRes} {now : Int} {res : BodyResult}
    (h : add_languages_finish e ws rc il r now = .ok res)
    (hmem : FieldVal.languages LangsField.neg1 ∈ res.writes)
    (hws : FieldVal.languages LangsField.neg1 ∉ ws) :
    r.langs = [] ∧ e.is_deleted = false := by
  unfold add_languages_finish at h
  split at h
  · cases h; exact absurd hmem hws
  · rename_i hdel
    by_cases hl : r.langs = []
    · exact ⟨hl, by simpa using hdel⟩
    · exfalso
      rw [if_pos (show r.langs ≠ [] from hl)] at h
      dsimp only at h
      rcases hds : add_languages_desc_step
          (update_field e (FieldVal.languages (LangsField.lst (make_lang_dict r.langs))) now)
          (ws ++ [FieldVal.languages (LangsField.lst (make_lang_dict r.langs))])
          r.description now with ⟨e₁, ws₁⟩
      rw [hds] at h
      dsimp only at h
      have hws₁ : FieldVal.languages LangsField.neg1 ∉ ws₁ := by
        have := add_languages_desc_step_writes hds
        rcases this with rfl | ⟨s, rfl⟩ <;> simp [List.mem_append, hws]
      split at h
      · exact absurd h (by simp)
      · rename_i e₂ ws₂ hk
        cases h
        rcases add_languages_fork_step_writes hk with rfl | ⟨v, rfl⟩ <;>
          simp [List.mem_append, hws₁] at hmem

/-- C7 (amended): the whole-record refresh `update_entry_from_github3`
leaves `readme` untouched and never overwrites nonempty `languages`
content; the `add_languages` body, however, can overwrite stored content
with the `-1` sentinel — it does so exactly when the resolver reports
attempted-and-absent for a live entry, identity change or not. -/
theorem c7_field_monotonicity_amended :
    (∀ (e : Entry) (repo : Repo) (now : Int),
      (update_entry_from_github3 e repo now).readme = e.readme)
    ∧ (∀ (e : Entry) (repo : Repo) (now : Int) (l : List LangEntry), l ≠ [] →
      e.languages = .lst l →
      (update_entry_from_github3 e repo now).languages = .lst l)
    ∧ (∀ (e : Entry) (ws : List FieldVal) (rc il : Nat) (r : GLRes) (now : Int)
        (res : BodyResult),
      add_languages_finish e ws rc il r now = .ok res →
      FieldVal.languages LangsField.neg1 ∈ res.writes →
      FieldVal.languages LangsField.neg1 ∉ ws →
      r.langs = [] ∧ e.is_deleted = false) := by
  refine ⟨?_, ?_, fun e ws rc il r now res h hm hw => add_languages_finish_neg1 h hm hw⟩
  · intro e repo now
    unfold update_entry_from_github3
    cases repo.language with
    | none =>
      dsimp only
      split <;> split <;> rfl
    | some lang =>
      dsimp only
      by_cases hc : lang ≠ [] ∧ (e.languages = LangsField.lst [] ∨ e.languages = LangsField.neg1)
      · rw [if_pos hc]
        split <;> split <;> rfl
      · rw [if_neg hc]
        split <;> split <;> rfl
  · intro e repo now l hl he
    unfold update_entry_from_github3
    cases repo.language with
    | none =>
      dsimp only
      split <;> split <;> simp [he]
    | some lang =>
      dsimp only
      have hc : ¬(lang ≠ [] ∧ (e.languages = LangsField.lst [] ∨ e.languages = LangsField.neg1)) := by
        rintro ⟨-, hb | hb⟩ <;> rw [he] at hb
        · exact hl (by simpa using hb)
        · simp at hb
      rw [if_neg hc]
      split <;> split <;> simp [he]

/-- Witness for C7 (amended): a concrete refresh that leaves stored
languages content intact. -/
theorem c7_field_monotonicity_amended_witness :
    (update_entry_from_github3 entryC7
      { id := 9, owner_login := "o".toList, name := "n".toList, description := none
        default_branch := [], homepage := none, is_private := false, fork := false
        parent := none, source := none, language := some "C".toList, size := 1
        created_at := 0, updated_at := 0, pushed_at := 0 } 5).languages
    = .lst [⟨"Python".toList⟩] :=
  (c7_field_monotonicity_amended).2.1 entryC7 _ 5 [⟨"Python".toList⟩] (by decide) rfl

/-! ## C8: `data_refreshed` invariant -/

/-- C8: every `update_field` write and every `update_entry_from_github3`
refresh sets `time.data_refreshed` to the current time in the same write. -/
theorem c8_data_refreshed :
    (∀ (e : Entry) (fv : FieldVal) (now : Int),
      (update_field e fv now).time.data_refreshed = now)
    ∧ (∀ (e : Entry) (repo : Repo) (now : Int),
      (update_entry_from_github3 e repo now).time.data_refreshed = now) := by
  constructor
  · intro e fv now
    cases fv <;> rfl
  · intro e repo now
    unfold update_entry_from_github3
    dsimp only
    split <;> split <;> split <;> rfl

/-! ## C9: CLI-dispatched entry points (`cataloguer.main` / `call`) -/

/-- The operation names `cataloguer.main` dispatches through
`call(action, ...)` / `getattr(indexer, action, None)`. -/
def dispatchedActions : List String :=
  ["print_summary", "print_indexed_ids", "print_index", "print_details",
   "create_index", "recreate_index", "add_languages", "add_fork_info",
   "add_readmes", "mark_deleted", "list_deleted", "update_entries"]

/-- The method names defined on `GitHubIndexer`. -/
def indexerMethods : List String :=
  ["__init__", "github", "api_calls_left", "api_reset_time", "wait_for_reset",
   "repo_via_api", "direct_api_call", "github_url_path", "github_url",
   "github_url_exists", "owner_name_from_github_url", "get_github_iterator",
   "get_search_iterator", "get_last_seen_id", "get_home_page", "add_entry",
   "update_entry", "update_field", "update_fork_field",
   "update_entry_from_github3", "add_entry_from_github3", "loop", "ensure_id",
   "entry_list", "repo_list", "repo_list_prefer_http", "language_query",
   "summarize_language_stats", "summarize_readme_stats", "summarize_files",
   "summarize_types", "list_deleted", "print_stats", "print_indexed_ids",
   "print_details", "print_summary", "extract_languages_from_html",
   "extract_files_from_html", "extract_fork_from_html",
   "extract_description_from_html", "extract_empty_from_html", "get_languages",
   "get_readme", "check_empty", "get_fork_info", "add_languages", "add_readmes",
   "create_index", "recreate_index", "verify_index", "infer_type",
   "update_files"]

/-- `getattr(indexer, action, None) is not None`. -/
def indexerHasMethod (action : String) : Bool := indexerMethods.contains action

/-- C9: four of the twelve CLI-dispatched operation names — `print_index`,
`add_fork_info`, `mark_deleted`, `update_entries` — have no corresponding
`GitHubIndexer` method, so `getattr` yields `None` and the dispatch call
raises instead of invoking an operation; the other eight resolve. -/
theorem c9_missing_dispatch_targets :
    dispatchedActions.filter (fun a => !(indexerHasMethod a))
      = ["print_index", "add_fork_info", "mark_deleted", "update_entries"]
    ∧ indexerHasMethod "mark_deleted" = false
    ∧ indexerHasMethod "add_fork_info" = false
    ∧ indexerHasMethod "add_languages" = true
    ∧ indexerHasMethod "create_index" = true := by
  decide

end Collector
